import Mathlib

/-!
# Verification of the a-h/stream event-sourced store

A shallow embedding of the library's Go code: the DynamoDB-backed store
(`store.go`), the processor (`processor.go`), the example aggregate from
`processor_test.go`, and the outbound EventBridge bridge
(`handler/handler.go`).  Records are modelled as association lists of
attribute values; the database itself is kept abstract (an oracle supplies
the outcome of each transactional write).
-/

set_option maxHeartbeats 1000000

namespace AHStream

/-- DynamoDB attribute values, as far as the library's own record layout
uses them: strings (`AttributeValueMemberS`) and numbers encoded as decimal
strings (`AttributeValueMemberN`).  User payload fields marshalled by the
codec may also be booleans. -/
inductive AttributeValue where
  | S (value : String)
  | N (value : String)
  | BOOL (value : Bool)
  deriving DecidableEq, Repr

/-- A DynamoDB item: the Go `map[string]types.AttributeValue`, modelled as
an association list (Go map assignment replaces the entry for the key). -/
abbrev Record := List (String × AttributeValue)

/-- Go map assignment `record[k] = v`: replace the entry for `k`, or append
a fresh entry if `k` is absent. -/
def setAttr : Record → String → AttributeValue → Record
  | [], k, v => [(k, v)]
  | (k', v') :: rest, k, v =>
    if k' = k then (k, v) :: rest else (k', v') :: setAttr rest k v

/-- Go map lookup `record[k]`. -/
def getAttr : Record → String → Option AttributeValue
  | [], _ => none
  | (k', v') :: rest, k => if k' = k then some v' else getAttr rest k

/-- A database client: either built from the ambient platform
configuration for a region (`config.LoadDefaultConfig` +
`dynamodb.NewFromConfig`), or injected ready-made by the caller. -/
inductive DBClient where
  | fromConfig (region : String)
  | injected (handle : Nat)
  deriving DecidableEq, Repr

/-- `DynamoDBStore` (store.go): the database client, table name, aggregate
namespace, the `PersistStateHistory` flag, and the injected `Now` clock
(surfacing only as the `_ts` unix seconds and the `_date` RFC3339
rendering).  The final field is the codec's field-tag name; see
`WithCodecTag`. -/
structure DynamoDBStore where
  client : DBClient
  tableName : String
  «namespace» : String
  persistStateHistory : Bool
  nowUnix : Int
  nowDate : String
  codecTag : String

/-- `createPartitionKey`: `fmt.Sprintf("%s/%s", namespace, id)`. -/
def DynamoDBStore.createPartitionKey (ddb : DynamoDBStore) (id : String) : String :=
  ddb.«namespace» ++ "/" ++ id

/-- `createStateRecordSortKey`: the constant sort key `STATE`. -/
def createStateRecordSortKey : String := "STATE"

/-- `createVersionedRecordSortKey`: `fmt.Sprintf("STATE/%d", atSequence)`. -/
def createVersionedRecordSortKey (atSequence : Int) : String :=
  "STATE/" ++ toString atSequence

/-- `createInboundRecordSortKey`:
`fmt.Sprintf("INBOUND/%d/%d/%s", sequence, index, typeName)`. -/
def createInboundRecordSortKey (typeName : String) (sequence : Int) (index : Nat) : String :=
  "INBOUND/" ++ toString sequence ++ "/" ++ toString index ++ "/" ++ typeName

/-- `createOutboundRecordSortKey`:
`fmt.Sprintf("OUTBOUND/%d/%d/%s", sequence, index, typeName)`. -/
def createOutboundRecordSortKey (typeName : String) (sequence : Int) (index : Nat) : String :=
  "OUTBOUND/" ++ toString sequence ++ "/" ++ toString index ++ "/" ++ typeName

/-- `attributeValueString`. -/
def attributeValueString (v : String) : AttributeValue := AttributeValue.S v

/-- `attributeValueInteger`: numbers are stored as decimal strings. -/
def attributeValueInteger (i : Int) : AttributeValue := AttributeValue.N (toString i)

/-- `createRecord`: take the codec-marshalled payload (`item`) and stamp the
metadata columns `_namespace`, `_pk`, `_seq`, `_sk`, `_typ`, `_ts`, `_date`
over it. -/
def DynamoDBStore.createRecord (ddb : DynamoDBStore) (id sk : String) (sequence : Int)
    (item : Record) (recordName : String) : Record :=
  let record := item
  let record := setAttr record "_namespace" (attributeValueString ddb.«namespace»)
  let record := setAttr record "_pk" (attributeValueString (ddb.createPartitionKey id))
  let record := setAttr record "_seq" (attributeValueInteger sequence)
  let record := setAttr record "_sk" (attributeValueString sk)
  let record := setAttr record "_typ" (attributeValueString recordName)
  let record := setAttr record "_ts" (attributeValueInteger ddb.nowUnix)
  let record := setAttr record "_date" (attributeValueString ddb.nowDate)
  record

/-- A `types.Put` within a transaction. -/
structure PutItem where
  tableName : String
  item : Record
  conditionExpression : String
  expressionAttributeNames : List (String × String)
  expressionAttributeValues : List (String × AttributeValue)
  deriving DecidableEq, Repr

/-- A `types.TransactWriteItem`; the library only ever issues `Put`s. -/
structure TransactWriteItem where
  put : PutItem
  deriving DecidableEq, Repr

/-- `createPut`: event records are written with the insert-only condition
`attribute_not_exists(#_pk)`. -/
def DynamoDBStore.createPut (ddb : DynamoDBStore) (item : Record) : TransactWriteItem :=
  { put :=
    { tableName := ddb.tableName
      item := item
      conditionExpression := "attribute_not_exists(#_pk)"
      expressionAttributeNames := [("#_pk", "_pk")]
      expressionAttributeValues := [] } }

/-- `createStateTransactWriteItem`: a state row (current or history) is
written with the optimistic-concurrency condition
`attribute_not_exists(#_pk) OR #_seq = :_seq`, where `:_seq` is the
caller-supplied previous sequence `atSequence - 1`. -/
def DynamoDBStore.createStateTransactWriteItem (ddb : DynamoDBStore) (id : String)
    (atSequence : Int) (state : Record) (key : String) : TransactWriteItem :=
  { put :=
    { tableName := ddb.tableName
      item := ddb.createRecord id key atSequence state ddb.«namespace»
      conditionExpression := "attribute_not_exists(#_pk) OR #_seq = :_seq"
      expressionAttributeNames := [("#_pk", "_pk"), ("#_seq", "_seq")]
      expressionAttributeValues := [(":_seq", attributeValueInteger (atSequence - 1))] } }

/-- `createStateTransactWriteItems`: the `STATE` row, plus — when
`PersistStateHistory` is set — the `STATE/<atSequence>` history row. -/
def DynamoDBStore.createStateTransactWriteItems (ddb : DynamoDBStore) (id : String)
    (atSequence : Int) (state : Record) : List TransactWriteItem :=
  let twis := [ddb.createStateTransactWriteItem id atSequence state createStateRecordSortKey]
  if ddb.persistStateHistory then
    twis ++ [ddb.createStateTransactWriteItem id atSequence state
      (createVersionedRecordSortKey atSequence)]
  else
    twis

/-- An inbound event as the store sees it: its `EventName()` and its
codec-marshalled attribute map. -/
structure InboundEvent where
  eventName : String
  attrs : Record
  deriving DecidableEq, Repr

/-- An outbound event as the store sees it. -/
structure OutboundEvent where
  eventName : String
  attrs : Record
  deriving DecidableEq, Repr

/-- `createInboundTransactWriteItems`: one `Put` per inbound event, indexed
from `i` (the Go loop runs `i = 0, 1, …`). -/
def DynamoDBStore.createInboundTransactWriteItems (ddb : DynamoDBStore) (id : String)
    (atSequence : Int) : Nat → List InboundEvent → List TransactWriteItem
  | _, [] => []
  | i, e :: rest =>
    ddb.createPut (ddb.createRecord id (createInboundRecordSortKey e.eventName atSequence i)
        atSequence e.attrs e.eventName)
      :: ddb.createInboundTransactWriteItems id atSequence (i + 1) rest

/-- `createOutboundTransactWriteItems`: one `Put` per outbound event. -/
def DynamoDBStore.createOutboundTransactWriteItems (ddb : DynamoDBStore) (id : String)
    (atSequence : Int) : Nat → List OutboundEvent → List TransactWriteItem
  | _, [] => []
  | i, e :: rest =>
    ddb.createPut (ddb.createRecord id (createOutboundRecordSortKey e.eventName atSequence i)
        atSequence e.attrs e.eventName)
      :: ddb.createOutboundTransactWriteItems id atSequence (i + 1) rest

/-- The transactional batch submitted by `Put`: `Put` first increments the
caller's `atSequence`, then concatenates the state item(s), the inbound
items and the outbound items. -/
def DynamoDBStore.putTransactItems (ddb : DynamoDBStore) (id : String) (atSequence : Int)
    (state : Record) (inbound : List InboundEvent) (outbound : List OutboundEvent) :
    List TransactWriteItem :=
  let next := atSequence + 1
  ddb.createStateTransactWriteItems id next state
    ++ ddb.createInboundTransactWriteItems id next 0 inbound
    ++ ddb.createOutboundTransactWriteItems id next 0 outbound

/-- A cancellation reason carried by a `TransactionCanceledException`. -/
structure CancellationReason where
  code : String
  deriving DecidableEq, Repr

/-- Errors the database client can report from `TransactWriteItems`. -/
inductive DBError where
  | transactionCanceled (cancellationReasons : List CancellationReason)
  | service (message : String)
  deriving DecidableEq, Repr

/-- Errors `Put` can return: the `ErrOptimisticConcurrency` sentinel, or the
database error passed through verbatim. -/
inductive PutError where
  | errOptimisticConcurrency
  | db (underlying : DBError)
  deriving DecidableEq, Repr

/-- The error-mapping at the end of `Put`: a `TransactionCanceledException`
with a `ConditionalCheckFailed` cancellation reason becomes
`ErrOptimisticConcurrency`; everything else (including a cancellation with
no such reason) is returned unchanged. -/
def putResultOf : Option DBError → Option PutError
  | none => none
  | some (DBError.transactionCanceled reasons) =>
    if reasons.any (fun r => r.code = "ConditionalCheckFailed") then
      some PutError.errOptimisticConcurrency
    else
      some (PutError.db (DBError.transactionCanceled reasons))
  | some e => some (PutError.db e)

/-- `Put` (store.go): build the transactional batch, submit it (the
database's verdict is the oracle `transactWrite`), and map the error. -/
def DynamoDBStore.put (ddb : DynamoDBStore) (id : String) (atSequence : Int) (state : Record)
    (inbound : List InboundEvent) (outbound : List OutboundEvent)
    (transactWrite : List TransactWriteItem → Option DBError) : Option PutError :=
  putResultOf (transactWrite (ddb.putTransactItems id atSequence state inbound outbound))

/-- The example aggregate from `processor_test.go`: emits a `BatchOutput`
once `BatchSize` inputs have accumulated. -/
structure BatchState where
  BatchSize : Int
  BatchesEmitted : Int
  Values : List Int
  deriving DecidableEq, Repr

/-- `BatchInput` (processor_test.go). -/
structure BatchInput where
  Number : Int
  deriving DecidableEq, Repr

/-- `BatchOutput` (processor_test.go). -/
structure BatchOutput where
  Numbers : List Int
  deriving DecidableEq, Repr

/-- `BatchState.Process`: append the number; once `len(Values) >= BatchSize`
emit the accumulated values, bump `BatchesEmitted` and clear `Values`. -/
def BatchState.process (s : BatchState) (event : BatchInput) : BatchState × List BatchOutput :=
  let s := { s with Values := s.Values ++ [event.Number] }
  if (s.Values.length : Int) ≥ s.BatchSize then
    ({ s with BatchesEmitted := s.BatchesEmitted + 1, Values := [] }, [⟨s.Values⟩])
  else
    (s, [])

/-- The test harness loop of `TestBatch`: fold `Process` over the events,
appending each call's outbound events. -/
def runBatchState (initial : BatchState) (events : List BatchInput) :
    BatchState × List BatchOutput :=
  events.foldl
    (fun acc e =>
      let r := acc.1.process e
      (r.1, acc.2 ++ r.2))
    (initial, [])

/-- A transact-write item whose record carries sort key `STATE`. -/
def isStateItem (twi : TransactWriteItem) : Bool :=
  getAttr twi.put.item "_sk" == some (AttributeValue.S "STATE")

/-- `StoreOptions` (store.go): the option record filled in by the
functional options before the store is built.  The `codecTag` field backs
`WithCodecTag`; its default is the database vendor's struct tag. -/
structure StoreOptions where
  region : String
  client : Option DBClient
  persistStateHistory : Bool
  codecTag : String
  deriving DecidableEq, Repr

/-- `StoreOption`: a functional option `func(*StoreOptions) error`. -/
abbrev StoreOption := StoreOptions → Except String StoreOptions

/-- `WithRegion` (store.go). -/
def WithRegion (region : String) : StoreOption :=
  fun o => Except.ok { o with region := region }

/-- `WithPersistStateHistory` (store.go). -/
def WithPersistStateHistory (d : Bool) : StoreOption :=
  fun o => Except.ok { o with persistStateHistory := d }

/-- `WithClient` (store.go). -/
def WithClient (client : DBClient) : StoreOption :=
  fun o => Except.ok { o with client := some client }

/-- Modelled from the spec: `WithCodecTag` — exercised by
`TestJSONCodecIntegration` in store_test.go but missing from the provided
store.go — "CodecTag (string) → switch the codec's field-tag name". -/
def WithCodecTag (tag : String) : StoreOption :=
  fun o => Except.ok { o with codecTag := tag }

/-- The zero `StoreOptions` value `NewStore` starts from; the codec tag
defaults to the database vendor's field tag (spec §4.1). -/
def defaultStoreOptions : StoreOptions :=
  { region := "", client := none, persistStateHistory := false, codecTag := "dynamodbav" }

/-- The option-application loop at the top of `NewStore`. -/
def applyStoreOptions : StoreOptions → List StoreOption → Except String StoreOptions
  | o, [] => Except.ok o
  | o, opt :: rest =>
    match opt o with
    | Except.error e => Except.error e
    | Except.ok o' => applyStoreOptions o' rest

/-- `NewStore(tableName, namespace, opts…)` (store.go): apply the options;
if no client was injected, build one from the ambient configuration using
the configured region; then assemble the store.  The ambient clock is
passed in as `nowUnix`/`nowDate`. -/
def NewStore (tableName ns : String) (opts : List StoreOption) (nowUnix : Int)
    (nowDate : String) : Except String DynamoDBStore :=
  match applyStoreOptions defaultStoreOptions opts with
  | Except.error e => Except.error e
  | Except.ok o =>
    let client :=
      match o.client with
      | none => DBClient.fromConfig o.region
      | some c => c
    Except.ok
      { client := client
        tableName := tableName
        «namespace» := ns
        persistStateHistory := o.persistStateHistory
        nowUnix := nowUnix
        nowDate := nowDate
        codecTag := o.codecTag }

/-- `Processor` (processor.go): a stateful coordinator bound to one
aggregate id, holding the user state object and the last-seen sequence.
`σ` is the user state type, kept generic as in the Go `State` interface. -/
structure Processor (σ : Type) where
  id : String
  state : σ
  sequence : Int

/-- The arguments of the one store commit (`store.Prepare` followed by
`store.Execute`) that `Processor.Process` submits. `ι`/`ω` are the user's
inbound/outbound event types. -/
structure StoreCommit (σ ι ω : Type) where
  id : String
  atSequence : Int
  state : σ
  inbound : List ι
  outbound : List ω

/-- The event loop inside `Processor.Prepare`: for each inbound event in
order run `state.Process` (modelled as `process : σ → ι → σ × List ω ×
Option ε`, the first component being the state after the in-place
mutation), appending the returned outbound events to the accumulator;
return at the first error. -/
def prepareLoop {σ ι ω ε : Type} (process : σ → ι → σ × List ω × Option ε) :
    σ → List ι → List ω → σ × List ω × Option ε
  | s, [], acc => (s, acc, none)
  | s, e :: rest, acc =>
    match process s e with
    | (s', _, some err) => (s', acc, some err)
    | (s', outs, none) => prepareLoop process s' rest (acc ++ outs)

/-- `Processor.Prepare`: run the loop from the current state over the
argument events, then hand `(id, sequence, state, inbound, outbound)` to
the store.  The returned processor reflects the in-place mutation of the
state object; `sequence` is not touched. -/
def Processor.prepare {σ ι ω ε : Type} (p : Processor σ)
    (process : σ → ι → σ × List ω × Option ε) (events : List ι) :
    Processor σ × Except ε (StoreCommit σ ι ω) :=
  match prepareLoop process p.state events [] with
  | (s', _, some e) => ({ p with state := s' }, Except.error e)
  | (s', outbound, none) =>
    ({ p with state := s' },
      Except.ok
        { id := p.id, atSequence := p.sequence, state := s', inbound := events,
          outbound := outbound })

/-- `Processor.Process`: `Prepare`, then `Execute` the prepared commit.
Returns the processor as it stands afterwards, the list of commits
submitted to the store, and the error. -/
def Processor.process {σ ι ω ε : Type} (p : Processor σ)
    (process : σ → ι → σ × List ω × Option ε) (events : List ι)
    (execute : StoreCommit σ ι ω → Option ε) :
    Processor σ × List (StoreCommit σ ι ω) × Option ε :=
  match p.prepare process events with
  | (p', Except.error e) => (p', [], some e)
  | (p', Except.ok commit) => (p', [commit], execute commit)

/-- Spec-side reading of C6: the state after folding the user logic over
the events in order. -/
def foldProcessState {σ ι ω : Type} (pf : σ → ι → σ × List ω) : σ → List ι → σ
  | s, [] => s
  | s, e :: rest => foldProcessState pf (pf s e).1 rest

/-- Spec-side reading of C6: the per-event outbound results concatenated
in argument order. -/
def concatProcessOutputs {σ ι ω : Type} (pf : σ → ι → σ × List ω) : σ → List ι → List ω
  | _, [] => []
  | s, e :: rest => (pf s e).2 ++ concatProcessOutputs pf (pf s e).1 rest

/-- Decimal digit accumulation for `strconv.ParseInt`. -/
def parseNatAux : List Char → Nat → Option Nat
  | [], acc => some acc
  | c :: rest, acc =>
    if c.isDigit then parseNatAux rest (acc * 10 + (c.toNat - '0'.toNat)) else none

/-- `strconv.ParseInt(v, 10, 64)` on the decimal digits (optional sign);
the 64-bit range check is not modelled. -/
def parseIntChars : List Char → Option Int
  | [] => none
  | '+' :: rest => if rest.isEmpty then none else (parseNatAux rest 0).map Int.ofNat
  | '-' :: rest => if rest.isEmpty then none else (parseNatAux rest 0).map fun n => -(n : Int)
  | ds => (parseNatAux ds 0).map Int.ofNat

/-- `getRecordSequenceNumber` (store.go): read the `_seq` attribute, require
it to be a number, and parse it as an integer. -/
def getRecordSequenceNumber (r : Record) : Except String Int :=
  match getAttr r "_seq" with
  | none => Except.error "missing _seq field in record"
  | some (AttributeValue.N v) =>
    match parseIntChars v.data with
    | some n => Except.ok n
    | none => Except.error "invalid _seq field in record"
  | some _ => Except.error "null _seq field in record"

/-- `getRecordType` (store.go): read the `_typ` attribute as a string. -/
def getRecordType (r : Record) : Except String String :=
  match getAttr r "_typ" with
  | none => Except.error "missing _typ field in record"
  | some (AttributeValue.S v) => Except.ok v
  | some _ => Except.error "null _typ field in record"

/-- The split underlying `strings.SplitN(v, "/", 2)`: the characters
before the first '/' and those after it, or `none` when no '/' occurs. -/
def splitFirstSlash : List Char → Option (List Char × List Char)
  | [] => none
  | c :: rest =>
    if c = '/' then some ([], rest)
    else
      match splitFirstSlash rest with
      | none => none
      | some (pre, suf) => some (c :: pre, suf)

/-- `splitSortKey` (store.go): `strings.SplitN(sk, "/", 2)` applied to the
`_sk` attribute — the prefix is the text before the first '/', the suffix
the remainder; a missing or non-string `_sk` yields empty prefix and
suffix. -/
def splitSortKey (r : Record) : String × String :=
  match getAttr r "_sk" with
  | some (AttributeValue.S v) =>
    match splitFirstSlash v.data with
    | none => (v, "")
    | some (pre, suf) => (pre.asString, suf.asString)
  | _ => ("", "")

/-- An event-reader table (`InboundEventReader`/`OutboundEventReader`):
event-name keyed factories. -/
def lookupReader {α : Type} : List (String × α) → String → Option α
  | [], _ => none
  | (k, v) :: rest, name => if k = name then some v else lookupReader rest name

/-- The INBOUND/OUTBOUND arm of the pager: fetch `_typ`, look up the
reader for it (a missing reader is fatal), and run it. -/
def decodeEventRecord {α : Type} (readers : List (String × (Record → Except String α)))
    (kind : String) (r : Record) : Except String α :=
  match getRecordType r with
  | Except.error e => Except.error e
  | Except.ok typ =>
    match lookupReader readers typ with
    | none => Except.error (kind ++ " event: no reader for " ++ typ)
    | some f =>
      match f r with
      | Except.error e => Except.error e
      | Except.ok event => Except.ok event

/-- The accumulator threaded through `QueryWithHistory`'s pager: the
`found` flag, the captured sequence, the state object being unmarshalled
into, and the three result lists. -/
structure QueryAccum (σ ι ω : Type) where
  found : Bool
  sequence : Int
  state : σ
  inbound : List ι
  outbound : List ω
  stateHistory : List σ

/-- One iteration of `QueryWithHistory`'s pager: dispatch on the prefix of
the record's sort key; records with any other prefix are left untouched. -/
def queryStep {σ ι ω : Type} (unmarshalState : Record → σ → Except String σ)
    (inboundReader : List (String × (Record → Except String ι)))
    (outboundReader : List (String × (Record → Except String ω)))
    (stateHistoryReader : Record → Except String σ)
    (acc : QueryAccum σ ι ω) (r : Record) : Except String (QueryAccum σ ι ω) :=
  if (splitSortKey r).1 = "STATE" then
    if (splitSortKey r).2 = "" then
      match unmarshalState r acc.state with
      | Except.error e => Except.error e
      | Except.ok s' =>
        match getRecordSequenceNumber r with
        | Except.error e => Except.error e
        | Except.ok seq => Except.ok { acc with found := true, state := s', sequence := seq }
    else
      match stateHistoryReader r with
      | Except.error e => Except.error e
      | Except.ok transition =>
        Except.ok { acc with stateHistory := acc.stateHistory ++ [transition] }
  else if (splitSortKey r).1 = "INBOUND" then
    match decodeEventRecord inboundReader "inbound" r with
    | Except.error e => Except.error e
    | Except.ok event => Except.ok { acc with inbound := acc.inbound ++ [event] }
  else if (splitSortKey r).1 = "OUTBOUND" then
    match decodeEventRecord outboundReader "outbound" r with
    | Except.error e => Except.error e
    | Except.ok event => Except.ok { acc with outbound := acc.outbound ++ [event] }
  else
    Except.ok acc

/-- The pager loop over all records of the partition, in the order the
database returns them; the first error stops the iteration. -/
def queryFold {σ ι ω : Type} (unmarshalState : Record → σ → Except String σ)
    (inboundReader : List (String × (Record → Except String ι)))
    (outboundReader : List (String × (Record → Except String ω)))
    (stateHistoryReader : Record → Except String σ) :
    QueryAccum σ ι ω → List Record → Except String (QueryAccum σ ι ω)
  | acc, [] => Except.ok acc
  | acc, r :: rest =>
    match queryStep unmarshalState inboundReader outboundReader stateHistoryReader acc r with
    | Except.error e => Except.error e
    | Except.ok acc' =>
      queryFold unmarshalState inboundReader outboundReader stateHistoryReader acc' rest

/-- `QueryWithHistory` (store.go): run the pager over the partition's
records (supplied in the database's ascending sort-key order), then require
that a `STATE` row was seen. -/
def queryWithHistory {σ ι ω : Type} (unmarshalState : Record → σ → Except String σ)
    (inboundReader : List (String × (Record → Except String ι)))
    (outboundReader : List (String × (Record → Except String ω)))
    (stateHistoryReader : Record → Except String σ)
    (state0 : σ) (records : List Record) :
    Except String (Int × List ι × List ω × List σ) :=
  match queryFold unmarshalState inboundReader outboundReader stateHistoryReader
      { found := false, sequence := 0, state := state0, inbound := [], outbound := [],
        stateHistory := [] } records with
  | Except.error e => Except.error e
  | Except.ok acc =>
    if acc.found then
      Except.ok (acc.sequence, acc.inbound, acc.outbound, acc.stateHistory)
    else
      Except.error "state not found"

/-- Spec-side reading of C3's order clause: the decodings of the INBOUND
records in exactly the order the records appear. -/
def orderedInboundDecodes {ι : Type} (inboundReader : List (String × (Record → Except String ι)))
    (records : List Record) : List ι :=
  records.filterMap fun r =>
    if (splitSortKey r).1 = "INBOUND" then
      (decodeEventRecord inboundReader "inbound" r).toOption
    else none

/-- Spec-side reading of C3's order clause, OUTBOUND side. -/
def orderedOutboundDecodes {ω : Type}
    (outboundReader : List (String × (Record → Except String ω)))
    (records : List Record) : List ω :=
  records.filterMap fun r =>
    if (splitSortKey r).1 = "OUTBOUND" then
      (decodeEventRecord outboundReader "outbound" r).toOption
    else none

/-- A `types.PutEventsRequestEntry` as the bridge builds and batches it
(handler/handler.go); `time` stands for the optional `Time` field. -/
structure PutEventsRequestEntry where
  time : Option Int
  source : String
  detailType : String
  detail : Option String
  resources : List String
  deriving DecidableEq, Repr

/-- `maxBatchSizeKB` (handler.go): `256 * 1024`. -/
def maxBatchSizeKB : Nat := 256 * 1024

/-- `maxCount` (handler.go): at most 10 entries per batch. -/
def maxCount : Nat := 10

/-- `getSize` (handler.go): 14 bytes when a time is present, plus the
lengths of source, detail type, detail (when present) and every
resource. -/
def getSize (entry : PutEventsRequestEntry) : Nat :=
  (if entry.time.isSome then 14 else 0)
    + entry.source.length
    + entry.detailType.length
    + (match entry.detail with
      | some d => d.length
      | none => 0)
    + (entry.resources.map String.length).sum

/-- The error `batch` returns for an entry larger than 256 KiB, carrying
the `fmt.Errorf` parameters (entry index and size). -/
structure BatchTooLargeError where
  index : Nat
  size : Nat
  deriving DecidableEq, Repr

/-- The loop of `batch` (handler.go): `i` is the current index, `rest` the
entries from `i` on, `batchFrom` the start of the current batch,
`batchSize` the current batch's cumulative size.  A batch is closed before
adding entry `i` when the cumulative size would reach 256 KiB or the batch
already holds 10 entries; the tail batch is appended after the loop. -/
def batchLoop (values : List PutEventsRequestEntry) :
    List PutEventsRequestEntry → Nat → Nat → Nat → List (List PutEventsRequestEntry) →
      List (List PutEventsRequestEntry) × Option BatchTooLargeError
  | [], _, batchFrom, _, pages =>
    (if batchFrom < values.length then pages ++ [values.drop batchFrom] else pages, none)
  | v :: rest, i, batchFrom, batchSize, pages =>
    let size := getSize v
    if size > maxBatchSizeKB then
      (pages, some { index := i, size := size })
    else if batchSize + size ≥ maxBatchSizeKB ∨ i - batchFrom = maxCount then
      batchLoop values rest (i + 1) i (0 + size)
        (pages ++ [(values.drop batchFrom).take (i - batchFrom)])
    else
      batchLoop values rest (i + 1) batchFrom (batchSize + size) pages

/-- `batch` (handler.go). -/
def batch (values : List PutEventsRequestEntry) :
    List (List PutEventsRequestEntry) × Option BatchTooLargeError :=
  batchLoop values values 0 0 0 []

/-- Cumulative payload of a batch. -/
def sizeSum (page : List PutEventsRequestEntry) : Nat :=
  (page.map getSize).sum

/-- `HandleRequest`'s use of `batch` (handler.go): when `batch` errors the
handler returns before any `PutEvents` call, so nothing is published. -/
def batchesToSend (values : List PutEventsRequestEntry) :
    List (List PutEventsRequestEntry) :=
  match batch values with
  | (_, some _) => []
  | (pages, none) => pages

/-- A transact-write item whose record carries the history sort key
`STATE/<atSequence>`. -/
def isHistoryItem (atSequence : Int) (twi : TransactWriteItem) : Bool :=
  getAttr twi.put.item "_sk" == some (AttributeValue.S (createVersionedRecordSortKey atSequence))

/-- The entry a hair over the 256 KiB limit used in C8's witness. -/
def oversizedEntry : PutEventsRequestEntry :=
  { time := none, source := (List.replicate (256 * 1024 + 1) 'a').asString,
    detailType := "", detail := none, resources := [] }

/-- The entry of size exactly 256 KiB used in C10. -/
def exactSizeEntry : PutEventsRequestEntry :=
  { time := none, source := (List.replicate (256 * 1024) 'a').asString,
    detailType := "", detail := none, resources := [] }

theorem getAttr_setAttr (r : Record) (k q : String) (v : AttributeValue) :
    getAttr (setAttr r k v) q = if k = q then some v else getAttr r q := by
  induction r with
  | nil =>
    by_cases h : k = q <;> simp [setAttr, getAttr, h]
  | cons p rest ih =>
    obtain ⟨k', v'⟩ := p
    by_cases h1 : k' = k
    · by_cases h2 : k = q <;> simp [setAttr, getAttr, h1, h2]
    · by_cases h2 : k' = q
      · subst h2
        have h3 : ¬ k = k' := fun h => h1 h.symm
        simp [setAttr, getAttr, h1, h3]
      · simp [setAttr, getAttr, h1, h2, ih]

theorem getAttr_createRecord_sk (ddb : DynamoDBStore) (id sk : String) (sequence : Int)
    (item : Record) (recordName : String) :
    getAttr (ddb.createRecord id sk sequence item recordName) "_sk" =
      some (attributeValueString sk) := by
  simp [DynamoDBStore.createRecord, getAttr_setAttr]

theorem getAttr_createRecord_seq (ddb : DynamoDBStore) (id sk : String) (sequence : Int)
    (item : Record) (recordName : String) :
    getAttr (ddb.createRecord id sk sequence item recordName) "_seq" =
      some (attributeValueInteger sequence) := by
  simp [DynamoDBStore.createRecord, getAttr_setAttr]

theorem getAttr_createRecord_typ (ddb : DynamoDBStore) (id sk : String) (sequence : Int)
    (item : Record) (recordName : String) :
    getAttr (ddb.createRecord id sk sequence item recordName) "_typ" =
      some (attributeValueString recordName) := by
  simp [DynamoDBStore.createRecord, getAttr_setAttr]

theorem createInboundRecordSortKey_ne_STATE (typeName : String) (sequence : Int) (index : Nat) :
    createInboundRecordSortKey typeName sequence index ≠ "STATE" := by
  intro h
  have h' := congrArg String.length h
  simp only [createInboundRecordSortKey, String.length_append] at h'
  have h8 : "INBOUND/".length = 8 := rfl
  have h5 : "STATE".length = 5 := rfl
  omega

theorem createOutboundRecordSortKey_ne_STATE (typeName : String) (sequence : Int) (index : Nat) :
    createOutboundRecordSortKey typeName sequence index ≠ "STATE" := by
  intro h
  have h' := congrArg String.length h
  simp only [createOutboundRecordSortKey, String.length_append] at h'
  have h9 : "OUTBOUND/".length = 9 := rfl
  have h5 : "STATE".length = 5 := rfl
  omega

theorem createVersionedRecordSortKey_ne_STATE (atSequence : Int) :
    createVersionedRecordSortKey atSequence ≠ "STATE" := by
  intro h
  have h' := congrArg String.length h
  simp only [createVersionedRecordSortKey, String.length_append] at h'
  have h6 : "STATE/".length = 6 := rfl
  have h5 : "STATE".length = 5 := rfl
  omega

theorem mem_createInboundTransactWriteItems (ddb : DynamoDBStore) (id : String)
    (atSequence : Int) :
    ∀ (i : Nat) (es : List InboundEvent) (twi : TransactWriteItem),
      twi ∈ ddb.createInboundTransactWriteItems id atSequence i es →
      ∃ (e : InboundEvent) (j : Nat), twi = ddb.createPut
        (ddb.createRecord id (createInboundRecordSortKey e.eventName atSequence j)
          atSequence e.attrs e.eventName) := by
  intro i es
  induction es generalizing i with
  | nil => intro twi h; simp [DynamoDBStore.createInboundTransactWriteItems] at h
  | cons e rest ih =>
    intro twi h
    simp only [DynamoDBStore.createInboundTransactWriteItems, List.mem_cons] at h
    rcases h with h | h
    · exact ⟨e, i, h⟩
    · exact ih (i + 1) twi h

theorem mem_createOutboundTransactWriteItems (ddb : DynamoDBStore) (id : String)
    (atSequence : Int) :
    ∀ (i : Nat) (es : List OutboundEvent) (twi : TransactWriteItem),
      twi ∈ ddb.createOutboundTransactWriteItems id atSequence i es →
      ∃ (e : OutboundEvent) (j : Nat), twi = ddb.createPut
        (ddb.createRecord id (createOutboundRecordSortKey e.eventName atSequence j)
          atSequence e.attrs e.eventName) := by
  intro i es
  induction es generalizing i with
  | nil => intro twi h; simp [DynamoDBStore.createOutboundTransactWriteItems] at h
  | cons e rest ih =>
    intro twi h
    simp only [DynamoDBStore.createOutboundTransactWriteItems, List.mem_cons] at h
    rcases h with h | h
    · exact ⟨e, i, h⟩
    · exact ih (i + 1) twi h

theorem not_isStateItem_createPut_record (ddb : DynamoDBStore) (id sk : String)
    (sequence : Int) (item : Record) (recordName : String) (hsk : sk ≠ "STATE") :
    isStateItem (ddb.createPut (ddb.createRecord id sk sequence item recordName)) = false := by
  simp only [isStateItem, DynamoDBStore.createPut, getAttr_createRecord_sk,
    attributeValueString]
  simp [hsk]

theorem not_isStateItem_inbound (ddb : DynamoDBStore) (id : String) (atSequence : Int)
    (i : Nat) (es : List InboundEvent) (twi : TransactWriteItem)
    (h : twi ∈ ddb.createInboundTransactWriteItems id atSequence i es) :
    isStateItem twi = false := by
  obtain ⟨e, j, rfl⟩ := mem_createInboundTransactWriteItems ddb id atSequence i es twi h
  exact not_isStateItem_createPut_record ddb id _ atSequence e.attrs e.eventName
    (createInboundRecordSortKey_ne_STATE e.eventName atSequence j)

theorem not_isStateItem_outbound (ddb : DynamoDBStore) (id : String) (atSequence : Int)
    (i : Nat) (es : List OutboundEvent) (twi : TransactWriteItem)
    (h : twi ∈ ddb.createOutboundTransactWriteItems id atSequence i es) :
    isStateItem twi = false := by
  obtain ⟨e, j, rfl⟩ := mem_createOutboundTransactWriteItems ddb id atSequence i es twi h
  exact not_isStateItem_createPut_record ddb id _ atSequence e.attrs e.eventName
    (createOutboundRecordSortKey_ne_STATE e.eventName atSequence j)

theorem isStateItem_createStateTransactWriteItem (ddb : DynamoDBStore) (id : String)
    (atSequence : Int) (state : Record) (key : String) :
    isStateItem (ddb.createStateTransactWriteItem id atSequence state key) = (key == "STATE") := by
  simp only [isStateItem, DynamoDBStore.createStateTransactWriteItem,
    getAttr_createRecord_sk, attributeValueString]
  by_cases h : key = "STATE" <;> simp [h]

theorem countP_isStateItem_inbound (ddb : DynamoDBStore) (id : String) (atSequence : Int)
    (i : Nat) (es : List InboundEvent) :
    (ddb.createInboundTransactWriteItems id atSequence i es).countP isStateItem = 0 :=
  List.countP_eq_zero.mpr fun twi h => by
    simp [not_isStateItem_inbound ddb id atSequence i es twi h]

theorem countP_isStateItem_outbound (ddb : DynamoDBStore) (id : String) (atSequence : Int)
    (i : Nat) (es : List OutboundEvent) :
    (ddb.createOutboundTransactWriteItems id atSequence i es).countP isStateItem = 0 :=
  List.countP_eq_zero.mpr fun twi h => by
    simp [not_isStateItem_outbound ddb id atSequence i es twi h]

theorem prepareLoop_of_no_error {σ ι ω ε : Type} (pf : σ → ι → σ × List ω) :
    ∀ (s : σ) (events : List ι) (acc : List ω),
      prepareLoop (fun s e => ((pf s e).1, (pf s e).2, (none : Option ε))) s events acc =
        (foldProcessState pf s events, acc ++ concatProcessOutputs pf s events, none) := by
  intro s events
  induction events generalizing s with
  | nil => intro acc; simp [prepareLoop, foldProcessState, concatProcessOutputs]
  | cons e rest ih =>
    intro acc
    simp [prepareLoop, foldProcessState, concatProcessOutputs, ih, List.append_assoc]

/-- C7: folding `BatchState.Process` from `{BatchSize := 2}` over the inputs
`1..7` ends in `{BatchSize := 2, BatchesEmitted := 3, Values := [7]}` having
emitted exactly `[1,2]`, `[3,4]`, `[5,6]`. -/
theorem batchState_fold_seven_inputs :
    runBatchState ⟨2, 0, []⟩ [⟨1⟩, ⟨2⟩, ⟨3⟩, ⟨4⟩, ⟨5⟩, ⟨6⟩, ⟨7⟩] =
      (⟨2, 3, [7]⟩, [⟨[1, 2]⟩, ⟨[3, 4]⟩, ⟨[5, 6]⟩]) := by
  decide

/-- C1: the batch submitted by `Put(id, atSequence, state, inbound, outbound)`
contains exactly one item with sort key `STATE`; that item's condition is
`attribute_not_exists(#_pk) OR #_seq = :_seq` with `:_seq = atSequence`, its
`_seq` attribute is `atSequence + 1` and its `_typ` is the store's
namespace; and every inbound and outbound item of the batch carries
`_seq = atSequence + 1`. -/
theorem put_batch_state_item (ddb : DynamoDBStore) (id : String) (atSequence : Int)
    (state : Record) (inbound : List InboundEvent) (outbound : List OutboundEvent) :
    (ddb.putTransactItems id atSequence state inbound outbound).countP isStateItem = 1
    ∧ (∀ twi ∈ ddb.putTransactItems id atSequence state inbound outbound,
        isStateItem twi = true →
          twi.put.conditionExpression = "attribute_not_exists(#_pk) OR #_seq = :_seq"
          ∧ twi.put.expressionAttributeValues = [(":_seq", attributeValueInteger atSequence)]
          ∧ getAttr twi.put.item "_seq" = some (attributeValueInteger (atSequence + 1))
          ∧ getAttr twi.put.item "_typ" = some (attributeValueString ddb.«namespace»))
    ∧ (∀ twi ∈ ddb.createInboundTransactWriteItems id (atSequence + 1) 0 inbound,
        getAttr twi.put.item "_seq" = some (attributeValueInteger (atSequence + 1)))
    ∧ (∀ twi ∈ ddb.createOutboundTransactWriteItems id (atSequence + 1) 0 outbound,
        getAttr twi.put.item "_seq" = some (attributeValueInteger (atSequence + 1))) := by
  have hseq : atSequence + 1 - 1 = atSequence := by omega
  refine ⟨?_, ?_, ?_, ?_⟩
  · simp only [DynamoDBStore.putTransactItems, List.countP_append,
      countP_isStateItem_inbound, countP_isStateItem_outbound]
    by_cases hp : ddb.persistStateHistory
    · simp [DynamoDBStore.createStateTransactWriteItems, hp, List.countP_cons,
        isStateItem_createStateTransactWriteItem, createStateRecordSortKey,
        createVersionedRecordSortKey_ne_STATE (atSequence + 1)]
    · simp [DynamoDBStore.createStateTransactWriteItems, hp, List.countP_cons,
        isStateItem_createStateTransactWriteItem, createStateRecordSortKey]
  · intro twi hmem hstate
    simp only [DynamoDBStore.putTransactItems, List.mem_append] at hmem
    rcases hmem with (hmem | hmem) | hmem
    · have hcase : twi = ddb.createStateTransactWriteItem id (atSequence + 1) state
          createStateRecordSortKey
          ∨ twi = ddb.createStateTransactWriteItem id (atSequence + 1) state
            (createVersionedRecordSortKey (atSequence + 1)) := by
        by_cases hp : ddb.persistStateHistory
        · simp only [DynamoDBStore.createStateTransactWriteItems, hp, if_true,
            List.cons_append, List.nil_append, List.mem_cons, List.mem_singleton] at hmem
          tauto
        · simp [DynamoDBStore.createStateTransactWriteItems, hp] at hmem
          exact Or.inl hmem
      rcases hcase with rfl | rfl
      · refine ⟨rfl, ?_, ?_, ?_⟩
        · simp [DynamoDBStore.createStateTransactWriteItem, hseq]
        · exact getAttr_createRecord_seq ddb id createStateRecordSortKey (atSequence + 1)
            state ddb.«namespace»
        · exact getAttr_createRecord_typ ddb id createStateRecordSortKey (atSequence + 1)
            state ddb.«namespace»
      · exfalso
        rw [isStateItem_createStateTransactWriteItem] at hstate
        exact createVersionedRecordSortKey_ne_STATE (atSequence + 1) (by simpa using hstate)
    · exact absurd hstate
        (by simp [not_isStateItem_inbound ddb id (atSequence + 1) 0 inbound twi hmem])
    · exact absurd hstate
        (by simp [not_isStateItem_outbound ddb id (atSequence + 1) 0 outbound twi hmem])
  · intro twi hmem
    obtain ⟨e, j, rfl⟩ :=
      mem_createInboundTransactWriteItems ddb id (atSequence + 1) 0 inbound twi hmem
    simpa [DynamoDBStore.createPut] using
      getAttr_createRecord_seq ddb id (createInboundRecordSortKey e.eventName (atSequence + 1) j)
        (atSequence + 1) e.attrs e.eventName
  · intro twi hmem
    obtain ⟨e, j, rfl⟩ :=
      mem_createOutboundTransactWriteItems ddb id (atSequence + 1) 0 outbound twi hmem
    simpa [DynamoDBStore.createPut] using
      getAttr_createRecord_seq ddb id (createOutboundRecordSortKey e.eventName (atSequence + 1) j)
        (atSequence + 1) e.attrs e.eventName

/-- Witness for C1 at a concrete store and batch. -/
theorem put_batch_state_item_witness :
    ((⟨DBClient.injected 0, "t", "ns", true, 0, "d", "dynamodbav"⟩ : DynamoDBStore).putTransactItems "id" 3 []
        [⟨"In", []⟩] [⟨"Out", []⟩]).countP isStateItem = 1
    ∧ getAttr ((⟨DBClient.injected 0, "t", "ns", true, 0, "d", "dynamodbav"⟩ : DynamoDBStore).createPut
          ((⟨DBClient.injected 0, "t", "ns", true, 0, "d", "dynamodbav"⟩ : DynamoDBStore).createRecord "id"
            (createInboundRecordSortKey "In" 4 0) 4 [] "In")).put.item "_seq" =
        some (attributeValueInteger 4)
    ∧ ((⟨DBClient.injected 0, "t", "ns", true, 0, "d", "dynamodbav"⟩ : DynamoDBStore).createStateTransactWriteItem "id" 4 []
        createStateRecordSortKey).put.conditionExpression =
        "attribute_not_exists(#_pk) OR #_seq = :_seq" := by
  refine ⟨(put_batch_state_item ⟨DBClient.injected 0, "t", "ns", true, 0, "d", "dynamodbav"⟩ "id" 3 [] [⟨"In", []⟩] [⟨"Out", []⟩]).1,
    (put_batch_state_item ⟨DBClient.injected 0, "t", "ns", true, 0, "d", "dynamodbav"⟩ "id" 3 [] [⟨"In", []⟩] [⟨"Out", []⟩]).2.2.1 _
      (by simp [DynamoDBStore.createInboundTransactWriteItems]), ?_⟩
  exact ((put_batch_state_item ⟨DBClient.injected 0, "t", "ns", true, 0, "d", "dynamodbav"⟩ "id" 3 [] [⟨"In", []⟩]
      [⟨"Out", []⟩]).2.1 _
    (by simp [DynamoDBStore.putTransactItems, DynamoDBStore.createStateTransactWriteItems])
    (by simp [isStateItem_createStateTransactWriteItem, createStateRecordSortKey])).1

/-- Characterization of `Put`'s error-mapping: the sentinel appears exactly
for a cancellation carrying a `ConditionalCheckFailed` reason. -/
theorem putResultOf_eq_OC_iff (o : Option DBError) :
    putResultOf o = some PutError.errOptimisticConcurrency ↔
      ∃ reasons, o = some (DBError.transactionCanceled reasons)
        ∧ ∃ r ∈ reasons, r.code = "ConditionalCheckFailed" := by
  rcases o with _ | e
  · constructor
    · intro h; exact absurd h (by simp [putResultOf])
    · rintro ⟨reasons, heq, _⟩; exact absurd heq (by simp)
  · rcases e with reasons | msg
    · constructor
      · intro h
        by_cases hccf : reasons.any (fun r => r.code = "ConditionalCheckFailed")
        · have hex := List.any_eq_true.mp hccf
          simp only [decide_eq_true_eq] at hex
          exact ⟨reasons, rfl, hex⟩
        · exfalso
          simp [putResultOf, hccf] at h
      · rintro ⟨reasons', heq, r, hr, hcode⟩
        have heq2 : reasons = reasons' := by
          injection heq with heq'
          injection heq' with heq''
        subst heq2
        have hccf : reasons.any (fun r => r.code = "ConditionalCheckFailed") = true :=
          List.any_eq_true.mpr ⟨r, hr, by simp [hcode]⟩
        simp [putResultOf, hccf]
    · constructor
      · intro h; simp [putResultOf] at h
      · rintro ⟨reasons', heq, _⟩; exact absurd heq (by simp)

/-- C2: `Put` returns the `ErrOptimisticConcurrency` sentinel exactly when
the database reports a `TransactionCanceledException` among whose
cancellation reasons is a `ConditionalCheckFailed`; success maps to no
error, and any other database error is passed through unchanged. -/
theorem put_error_mapping (ddb : DynamoDBStore) (id : String) (atSequence : Int)
    (state : Record) (inbound : List InboundEvent) (outbound : List OutboundEvent)
    (transactWrite : List TransactWriteItem → Option DBError) :
    (ddb.put id atSequence state inbound outbound transactWrite =
        some PutError.errOptimisticConcurrency ↔
      ∃ reasons,
        transactWrite (ddb.putTransactItems id atSequence state inbound outbound) =
            some (DBError.transactionCanceled reasons)
          ∧ ∃ r ∈ reasons, r.code = "ConditionalCheckFailed")
    ∧ (transactWrite (ddb.putTransactItems id atSequence state inbound outbound) = none →
        ddb.put id atSequence state inbound outbound transactWrite = none)
    ∧ (∀ e, transactWrite (ddb.putTransactItems id atSequence state inbound outbound) = some e →
        (∀ reasons, e = DBError.transactionCanceled reasons →
          ∀ r ∈ reasons, r.code ≠ "ConditionalCheckFailed") →
        ddb.put id atSequence state inbound outbound transactWrite = some (PutError.db e)) := by
  refine ⟨putResultOf_eq_OC_iff _, ?_, ?_⟩
  · intro h
    simp [DynamoDBStore.put, h, putResultOf]
  · intro e he hno
    rcases e with reasons | msg
    · have hnone : reasons.any (fun r => r.code = "ConditionalCheckFailed") = false := by
        cases h2 : reasons.any (fun r => r.code = "ConditionalCheckFailed") with
        | false => rfl
        | true =>
          obtain ⟨r, hr, hc⟩ := List.any_eq_true.mp h2
          simp only [decide_eq_true_eq] at hc
          exact absurd hc (hno reasons rfl r hr)
      simp [DynamoDBStore.put, he, putResultOf, hnone]
    · simp [DynamoDBStore.put, he, putResultOf]

/-- Witness for C2: a cancellation with a `ConditionalCheckFailed` reason
surfaces the sentinel; a plain service error is passed through. -/
theorem put_error_mapping_witness :
    (⟨DBClient.injected 0, "t", "ns", false, 0, "d", "dynamodbav"⟩ : DynamoDBStore).put "id" 0 [] [] []
        (fun _ => some (DBError.transactionCanceled [⟨"ConditionalCheckFailed"⟩])) =
      some PutError.errOptimisticConcurrency
    ∧ (⟨DBClient.injected 0, "t", "ns", false, 0, "d", "dynamodbav"⟩ : DynamoDBStore).put "id" 0 [] [] []
        (fun _ => some (DBError.service "boom")) =
      some (PutError.db (DBError.service "boom")) := by
  constructor
  · exact (put_error_mapping ⟨DBClient.injected 0, "t", "ns", false, 0, "d", "dynamodbav"⟩ "id" 0 [] [] []
      (fun _ => some (DBError.transactionCanceled [⟨"ConditionalCheckFailed"⟩]))).1.mpr
      ⟨[⟨"ConditionalCheckFailed"⟩], rfl, ⟨"ConditionalCheckFailed"⟩, by simp, rfl⟩
  · exact (put_error_mapping ⟨DBClient.injected 0, "t", "ns", false, 0, "d", "dynamodbav"⟩ "id" 0 [] [] []
      (fun _ => some (DBError.service "boom"))).2.2 (DBError.service "boom") rfl
      (by intro reasons h; exact absurd h (by simp))

/-- C4 counterexample: with `PersistStateHistory` on, the batch for
`Put("id", 0, …)` holds the `STATE` row and the `STATE/1` history row, and
the history row's condition expression is
`attribute_not_exists(#_pk) OR #_seq = :_seq` — not the insert-only
condition `attribute_not_exists(#_pk)` the claim states. -/
theorem put_history_condition_counterexample :
    ((⟨DBClient.injected 0, "t", "ns", true, 0, "d", "dynamodbav"⟩ : DynamoDBStore).putTransactItems "id" 0 [] [] []).map
        (fun twi => (getAttr twi.put.item "_sk", twi.put.conditionExpression)) =
      [(some (AttributeValue.S "STATE"), "attribute_not_exists(#_pk) OR #_seq = :_seq"),
        (some (AttributeValue.S "STATE/1"), "attribute_not_exists(#_pk) OR #_seq = :_seq")]
    ∧ ("attribute_not_exists(#_pk) OR #_seq = :_seq" : String) ≠ "attribute_not_exists(#_pk)" := by
  decide

theorem createInboundRecordSortKey_ne_stateSlash (typeName : String) (sequence : Int)
    (index : Nat) (x : String) :
    createInboundRecordSortKey typeName sequence index ≠ "STATE/" ++ x := by
  intro h
  have h' := congrArg String.data h
  simp only [createInboundRecordSortKey, String.data_append, List.append_assoc] at h'
  simp only [List.cons_append, List.nil_append, List.cons.injEq] at h'
  exact absurd h'.1 (by decide)

theorem createOutboundRecordSortKey_ne_stateSlash (typeName : String) (sequence : Int)
    (index : Nat) (x : String) :
    createOutboundRecordSortKey typeName sequence index ≠ "STATE/" ++ x := by
  intro h
  have h' := congrArg String.data h
  simp only [createOutboundRecordSortKey, String.data_append, List.append_assoc] at h'
  simp only [List.cons_append, List.nil_append, List.cons.injEq] at h'
  exact absurd h'.1 (by decide)

theorem STATE_ne_stateSlash (x : String) : "STATE" ≠ "STATE/" ++ x := by
  intro h
  have h' := congrArg String.length h
  rw [String.length_append] at h'
  have h5 : "STATE".length = 5 := rfl
  have h6 : "STATE/".length = 6 := rfl
  omega

theorem isHistoryItem_createStateTransactWriteItem (ddb : DynamoDBStore) (id : String)
    (n atSequence : Int) (state : Record) (key : String) :
    isHistoryItem n (ddb.createStateTransactWriteItem id atSequence state key) =
      (key == createVersionedRecordSortKey n) := by
  simp only [isHistoryItem, DynamoDBStore.createStateTransactWriteItem,
    getAttr_createRecord_sk, attributeValueString]
  by_cases h : key = createVersionedRecordSortKey n <;> simp [h]

/-- C4 amended: with `PersistStateHistory` enabled, every `Put` writes
exactly one history item, with sort key `STATE/<atSequence+1>` — but its
condition expression is the same optimistic-concurrency condition as the
`STATE` item, `attribute_not_exists(#_pk) OR #_seq = :_seq` with
`:_seq = atSequence`, not the insert-only condition. -/
theorem put_history_item (ddb : DynamoDBStore) (id : String) (atSequence : Int)
    (state : Record) (inbound : List InboundEvent) (outbound : List OutboundEvent)
    (hp : ddb.persistStateHistory = true) :
    (ddb.putTransactItems id atSequence state inbound outbound).countP
        (isHistoryItem (atSequence + 1)) = 1
    ∧ (∀ twi ∈ ddb.putTransactItems id atSequence state inbound outbound,
        isHistoryItem (atSequence + 1) twi = true →
          twi.put.conditionExpression = "attribute_not_exists(#_pk) OR #_seq = :_seq"
          ∧ twi.put.expressionAttributeValues =
              [(":_seq", attributeValueInteger atSequence)]) := by
  have hseq : atSequence + 1 - 1 = atSequence := by omega
  have hinb : (ddb.createInboundTransactWriteItems id (atSequence + 1) 0 inbound).countP
      (isHistoryItem (atSequence + 1)) = 0 := by
    refine List.countP_eq_zero.mpr fun twi h => ?_
    obtain ⟨e, j, rfl⟩ :=
      mem_createInboundTransactWriteItems ddb id (atSequence + 1) 0 inbound twi h
    simp only [isHistoryItem, DynamoDBStore.createPut, getAttr_createRecord_sk,
      attributeValueString]
    simp [createInboundRecordSortKey_ne_stateSlash e.eventName (atSequence + 1) j
      (toString (atSequence + 1)), createVersionedRecordSortKey]
  have houtb : (ddb.createOutboundTransactWriteItems id (atSequence + 1) 0 outbound).countP
      (isHistoryItem (atSequence + 1)) = 0 := by
    refine List.countP_eq_zero.mpr fun twi h => ?_
    obtain ⟨e, j, rfl⟩ :=
      mem_createOutboundTransactWriteItems ddb id (atSequence + 1) 0 outbound twi h
    simp only [isHistoryItem, DynamoDBStore.createPut, getAttr_createRecord_sk,
      attributeValueString]
    simp [createOutboundRecordSortKey_ne_stateSlash e.eventName (atSequence + 1) j
      (toString (atSequence + 1)), createVersionedRecordSortKey]
  constructor
  · simp only [DynamoDBStore.putTransactItems, List.countP_append, hinb, houtb]
    simp [DynamoDBStore.createStateTransactWriteItems, hp, List.countP_cons,
      isHistoryItem_createStateTransactWriteItem, createStateRecordSortKey,
      createVersionedRecordSortKey, STATE_ne_stateSlash (toString (atSequence + 1))]
  · intro twi hmem hhist
    simp only [DynamoDBStore.putTransactItems, List.mem_append] at hmem
    rcases hmem with (hmem | hmem) | hmem
    · simp [DynamoDBStore.createStateTransactWriteItems, hp] at hmem
      rcases hmem with rfl | rfl
      · exfalso
        rw [isHistoryItem_createStateTransactWriteItem] at hhist
        have : createStateRecordSortKey = createVersionedRecordSortKey (atSequence + 1) := by
          simpa using hhist
        exact STATE_ne_stateSlash (toString (atSequence + 1)) this
      · exact ⟨rfl, by simp [DynamoDBStore.createStateTransactWriteItem, hseq]⟩
    · exfalso
      obtain ⟨e, j, rfl⟩ :=
        mem_createInboundTransactWriteItems ddb id (atSequence + 1) 0 inbound twi hmem
      simp only [isHistoryItem, DynamoDBStore.createPut, getAttr_createRecord_sk,
        attributeValueString] at hhist
      exact createInboundRecordSortKey_ne_stateSlash e.eventName (atSequence + 1) j
        (toString (atSequence + 1)) (by simpa [createVersionedRecordSortKey] using hhist)
    · exfalso
      obtain ⟨e, j, rfl⟩ :=
        mem_createOutboundTransactWriteItems ddb id (atSequence + 1) 0 outbound twi hmem
      simp only [isHistoryItem, DynamoDBStore.createPut, getAttr_createRecord_sk,
        attributeValueString] at hhist
      exact createOutboundRecordSortKey_ne_stateSlash e.eventName (atSequence + 1) j
        (toString (atSequence + 1)) (by simpa [createVersionedRecordSortKey] using hhist)

/-- Witness for the amended C4 at a concrete store and batch. -/
theorem put_history_item_witness :
    ((⟨DBClient.injected 0, "t", "ns", true, 0, "d", "dynamodbav"⟩ : DynamoDBStore).putTransactItems "id" 2 [] [⟨"In", []⟩]
        []).countP (isHistoryItem 3) = 1
    ∧ ((⟨DBClient.injected 0, "t", "ns", true, 0, "d", "dynamodbav"⟩ : DynamoDBStore).createStateTransactWriteItem "id" 3 []
          (createVersionedRecordSortKey 3)).put.conditionExpression =
        "attribute_not_exists(#_pk) OR #_seq = :_seq" := by
  refine ⟨(put_history_item ⟨DBClient.injected 0, "t", "ns", true, 0, "d", "dynamodbav"⟩ "id" 2 [] [⟨"In", []⟩] [] rfl).1, ?_⟩
  exact ((put_history_item ⟨DBClient.injected 0, "t", "ns", true, 0, "d", "dynamodbav"⟩ "id" 2 [] [⟨"In", []⟩] [] rfl).2 _
    (by simp [DynamoDBStore.putTransactItems, DynamoDBStore.createStateTransactWriteItems])
    (by simp [isHistoryItem_createStateTransactWriteItem])).1

/-- C5: `NewStore` recognizes `Region`, `Client`, `PersistStateHistory` and
`CodecTag`: each option sets its field of `StoreOptions`, the constructed
store reflects all four, and with no injected client the store builds one
from the ambient configuration at the configured region. -/
theorem newStore_recognizes_options (t ns r : String) (c : DBClient) (b : Bool)
    (tag : String) (nu : Int) (nd : String) (o : StoreOptions) :
    NewStore t ns [WithRegion r, WithClient c, WithPersistStateHistory b, WithCodecTag tag]
        nu nd =
      Except.ok
        { client := c, tableName := t, «namespace» := ns, persistStateHistory := b,
          nowUnix := nu, nowDate := nd, codecTag := tag }
    ∧ WithRegion r o = Except.ok { o with region := r }
    ∧ WithClient c o = Except.ok { o with client := some c }
    ∧ WithPersistStateHistory b o = Except.ok { o with persistStateHistory := b }
    ∧ WithCodecTag tag o = Except.ok { o with codecTag := tag }
    ∧ NewStore t ns [WithRegion r] nu nd =
        Except.ok
          { client := DBClient.fromConfig r, tableName := t, «namespace» := ns,
            persistStateHistory := false, nowUnix := nu, nowDate := nd,
            codecTag := "dynamodbav" } := by
  refine ⟨rfl, rfl, rfl, rfl, rfl, rfl⟩

/-- C6: when every `state.Process` call succeeds, `Processor.Process`
submits exactly one store commit, carrying the processor's held sequence,
the full inbound event list and the outbound events; the processor's
`sequence` field is unchanged afterwards; and (for pure user logic) the
committed state is the in-order fold of `state.Process` and the committed
outbound list is the in-order concatenation of the per-event outputs. -/
theorem processor_process_single_commit {σ ι ω ε : Type} (p : Processor σ)
    (process : σ → ι → σ × List ω × Option ε) (events : List ι)
    (execute : StoreCommit σ ι ω → Option ε) (s' : σ) (outs : List ω)
    (h : prepareLoop process p.state events [] = (s', outs, none)) :
    p.process process events execute =
      ({ p with state := s' },
        [(⟨p.id, p.sequence, s', events, outs⟩ : StoreCommit σ ι ω)],
        execute ⟨p.id, p.sequence, s', events, outs⟩)
    ∧ (p.process process events execute).1.sequence = p.sequence
    ∧ ∀ pf : σ → ι → σ × List ω,
        process = (fun s e => ((pf s e).1, (pf s e).2, none)) →
        s' = foldProcessState pf p.state events
        ∧ outs = concatProcessOutputs pf p.state events := by
  have hmain : p.process process events execute =
      ({ p with state := s' },
        [(⟨p.id, p.sequence, s', events, outs⟩ : StoreCommit σ ι ω)],
        execute ⟨p.id, p.sequence, s', events, outs⟩) := by
    simp only [Processor.process, Processor.prepare, h]
  refine ⟨hmain, by rw [hmain], ?_⟩
  intro pf hpf
  subst hpf
  have hlift := prepareLoop_of_no_error (ε := ε) pf p.state events []
  rw [h] at hlift
  have h1 := congrArg (fun x => x.1) hlift
  have h2 := congrArg (fun x => x.2.1) hlift
  simp only [List.nil_append] at h1 h2
  exact ⟨h1, h2⟩

/-- Witness for C6: the batching aggregate over the seven test inputs. -/
theorem processor_process_single_commit_witness :
    Processor.process (⟨"id", ⟨2, 0, []⟩, 0⟩ : Processor BatchState)
        (fun s e => ((BatchState.process s e).1, (BatchState.process s e).2,
          (none : Option String)))
        [⟨1⟩, ⟨2⟩, ⟨3⟩, ⟨4⟩, ⟨5⟩, ⟨6⟩, ⟨7⟩] (fun _ => none) =
      (⟨"id", ⟨2, 3, [7]⟩, 0⟩,
        [(⟨"id", 0, ⟨2, 3, [7]⟩, [⟨1⟩, ⟨2⟩, ⟨3⟩, ⟨4⟩, ⟨5⟩, ⟨6⟩, ⟨7⟩],
          [⟨[1, 2]⟩, ⟨[3, 4]⟩, ⟨[5, 6]⟩]⟩ : StoreCommit BatchState BatchInput BatchOutput)],
        none) :=
  (processor_process_single_commit (⟨"id", ⟨2, 0, []⟩, 0⟩ : Processor BatchState)
    (fun s e => ((BatchState.process s e).1, (BatchState.process s e).2,
      (none : Option String)))
    [⟨1⟩, ⟨2⟩, ⟨3⟩, ⟨4⟩, ⟨5⟩, ⟨6⟩, ⟨7⟩] (fun _ => none)
    ⟨2, 3, [7]⟩ [⟨[1, 2]⟩, ⟨[3, 4]⟩, ⟨[5, 6]⟩] (by decide)).1

/-- A record whose sort-key prefix is none of `STATE`, `INBOUND`,
`OUTBOUND` leaves the pager's accumulator untouched. -/
theorem queryStep_unknown_sortKeyKind {σ ι ω : Type}
    (unmarshalState : Record → σ → Except String σ)
    (inboundReader : List (String × (Record → Except String ι)))
    (outboundReader : List (String × (Record → Except String ω)))
    (stateHistoryReader : Record → Except String σ)
    (acc : QueryAccum σ ι ω) (r : Record)
    (h : (splitSortKey r).1 ∉ (["STATE", "INBOUND", "OUTBOUND"] : List String)) :
    queryStep unmarshalState inboundReader outboundReader stateHistoryReader acc r =
      Except.ok acc := by
  simp only [List.mem_cons, List.not_mem_nil, or_false, not_or] at h
  obtain ⟨h1, h2, h3⟩ := h
  simp [queryStep, h1, h2, h3]

theorem queryFold_skip_unknown {σ ι ω : Type}
    (unmarshalState : Record → σ → Except String σ)
    (inboundReader : List (String × (Record → Except String ι)))
    (outboundReader : List (String × (Record → Except String ω)))
    (stateHistoryReader : Record → Except String σ)
    (r : Record) (l2 : List Record)
    (h : (splitSortKey r).1 ∉ (["STATE", "INBOUND", "OUTBOUND"] : List String)) :
    ∀ (l1 : List Record) (acc : QueryAccum σ ι ω),
      queryFold unmarshalState inboundReader outboundReader stateHistoryReader acc
          (l1 ++ r :: l2) =
        queryFold unmarshalState inboundReader outboundReader stateHistoryReader acc
          (l1 ++ l2) := by
  intro l1
  induction l1 with
  | nil =>
    intro acc
    simp [queryFold,
      queryStep_unknown_sortKeyKind unmarshalState inboundReader outboundReader stateHistoryReader
        acc r h]
  | cons x l1' ih =>
    intro acc
    simp only [List.cons_append, queryFold]
    cases queryStep unmarshalState inboundReader outboundReader stateHistoryReader acc x with
    | error e => rfl
    | ok acc' => exact ih acc'

/-- C9: a stored record whose sort-key prefix (the text before the first
'/') is none of `STATE`, `INBOUND`, `OUTBOUND` is silently skipped by
`QueryWithHistory`: the result — error included — is the same as if the
record were absent. -/
theorem query_skips_unknown_sortKeyKind {σ ι ω : Type}
    (unmarshalState : Record → σ → Except String σ)
    (inboundReader : List (String × (Record → Except String ι)))
    (outboundReader : List (String × (Record → Except String ω)))
    (stateHistoryReader : Record → Except String σ)
    (state0 : σ) (l1 l2 : List Record) (r : Record)
    (h : (splitSortKey r).1 ∉ (["STATE", "INBOUND", "OUTBOUND"] : List String)) :
    queryWithHistory unmarshalState inboundReader outboundReader stateHistoryReader state0
        (l1 ++ r :: l2) =
      queryWithHistory unmarshalState inboundReader outboundReader stateHistoryReader state0
        (l1 ++ l2) := by
  unfold queryWithHistory
  rw [queryFold_skip_unknown unmarshalState inboundReader outboundReader stateHistoryReader
    r l2 h l1]

/-- Witness for C9: a `GARBAGE/1` record inserted after the `STATE` row
changes nothing. -/
theorem query_skips_unknown_sortKeyKind_witness :
    queryWithHistory (fun _ s => Except.ok s)
        ([] : List (String × (Record → Except String Int)))
        ([] : List (String × (Record → Except String Int)))
        (fun _ => Except.ok 0) (0 : Int)
        ([[("_sk", AttributeValue.S "STATE"), ("_seq", AttributeValue.N "1")]] ++
          [("_sk", AttributeValue.S "GARBAGE/1")] :: []) =
      queryWithHistory (fun _ s => Except.ok s)
        ([] : List (String × (Record → Except String Int)))
        ([] : List (String × (Record → Except String Int)))
        (fun _ => Except.ok 0) (0 : Int)
        ([[("_sk", AttributeValue.S "STATE"), ("_seq", AttributeValue.N "1")]] ++ []) :=
  query_skips_unknown_sortKeyKind (fun _ s => Except.ok s) [] [] (fun _ => Except.ok 0) 0
    [[("_sk", AttributeValue.S "STATE"), ("_seq", AttributeValue.N "1")]] []
    [("_sk", AttributeValue.S "GARBAGE/1")] (by decide)

/-- What one pager iteration does to the inbound and outbound lists. -/
theorem queryStep_inbound_outbound {σ ι ω : Type}
    (unmarshalState : Record → σ → Except String σ)
    (inboundReader : List (String × (Record → Except String ι)))
    (outboundReader : List (String × (Record → Except String ω)))
    (stateHistoryReader : Record → Except String σ)
    (acc acc1 : QueryAccum σ ι ω) (r : Record)
    (h : queryStep unmarshalState inboundReader outboundReader stateHistoryReader acc r =
      Except.ok acc1) :
    acc1.inbound = acc.inbound ++
        (if (splitSortKey r).1 = "INBOUND" then
          (decodeEventRecord inboundReader "inbound" r).toOption.toList else [])
    ∧ acc1.outbound = acc.outbound ++
        (if (splitSortKey r).1 = "OUTBOUND" then
          (decodeEventRecord outboundReader "outbound" r).toOption.toList else []) := by
  by_cases h1 : (splitSortKey r).1 = "STATE"
  · rw [h1]
    simp only [queryStep, h1, if_true] at h
    by_cases h1' : (splitSortKey r).2 = ""
    · simp only [h1', if_true] at h
      rcases hu : unmarshalState r acc.state with e | s'
      · rw [hu] at h; cases h
      · rw [hu] at h
        rcases hq : getRecordSequenceNumber r with e | seq
        · rw [hq] at h; cases h
        · rw [hq] at h
          injection h with h
          subst h
          simp
    · simp only [h1', if_false] at h
      rcases hh : stateHistoryReader r with e | transition
      · rw [hh] at h; cases h
      · rw [hh] at h
        injection h with h
        subst h
        simp
  · by_cases h2 : (splitSortKey r).1 = "INBOUND"
    · rw [h2]
      simp only [queryStep, h1, h2, if_true, if_false] at h
      rcases hd : decodeEventRecord inboundReader "inbound" r with e | event
      · rw [hd] at h; cases h
      · rw [hd] at h
        injection h with h
        subst h
        simp [hd, Except.toOption, Option.toList]
    · by_cases h3 : (splitSortKey r).1 = "OUTBOUND"
      · rw [h3]
        simp only [queryStep, h1, h2, h3, if_true, if_false] at h
        rcases hd : decodeEventRecord outboundReader "outbound" r with e | event
        · rw [hd] at h; cases h
        · rw [hd] at h
          injection h with h
          subst h
          simp [hd, Except.toOption, Option.toList, h2, h3]
      · simp only [queryStep, h1, h2, h3, if_false] at h
        injection h with h
        subst h
        simp [h1, h2, h3]

/-- The pager returns the inbound and outbound events in exactly the order
of the records it consumed. -/
theorem queryFold_inbound_outbound_order {σ ι ω : Type}
    (unmarshalState : Record → σ → Except String σ)
    (inboundReader : List (String × (Record → Except String ι)))
    (outboundReader : List (String × (Record → Except String ω)))
    (stateHistoryReader : Record → Except String σ) :
    ∀ (records : List Record) (acc acc' : QueryAccum σ ι ω),
      queryFold unmarshalState inboundReader outboundReader stateHistoryReader acc records =
        Except.ok acc' →
      acc'.inbound = acc.inbound ++ orderedInboundDecodes inboundReader records
      ∧ acc'.outbound = acc.outbound ++ orderedOutboundDecodes outboundReader records := by
  intro records
  induction records with
  | nil =>
    intro acc acc' h
    simp only [queryFold] at h
    injection h with h
    subst h
    simp [orderedInboundDecodes, orderedOutboundDecodes]
  | cons r rest ih =>
    intro acc acc' h
    simp only [queryFold] at h
    rcases hstep : queryStep unmarshalState inboundReader outboundReader stateHistoryReader
        acc r with e | acc1
    · rw [hstep] at h; cases h
    · rw [hstep] at h
      obtain ⟨hi, ho⟩ := ih acc1 acc' h
      obtain ⟨hi1, ho1⟩ := queryStep_inbound_outbound unmarshalState inboundReader
        outboundReader stateHistoryReader acc acc1 r hstep
      constructor
      · rw [hi, hi1, List.append_assoc]
        congr 1
        simp only [orderedInboundDecodes, List.filterMap_cons]
        by_cases hp : (splitSortKey r).1 = "INBOUND"
        · rw [if_pos hp, if_pos hp]
          cases (decodeEventRecord inboundReader "inbound" r).toOption <;> simp [Option.toList]
        · rw [if_neg hp, if_neg hp]
          simp
      · rw [ho, ho1, List.append_assoc]
        congr 1
        simp only [orderedOutboundDecodes, List.filterMap_cons]
        by_cases hp : (splitSortKey r).1 = "OUTBOUND"
        · rw [if_pos hp, if_pos hp]
          cases (decodeEventRecord outboundReader "outbound" r).toOption <;> simp [Option.toList]
        · rw [if_neg hp, if_neg hp]
          simp

theorem string_toList_append (s t : String) : (s ++ t).toList = s.toList ++ t.toList :=
  String.data_append s t

theorem lex_append_left (p : List Char) {x y : List Char} (h : List.Lex (· < ·) x y) :
    List.Lex (· < ·) (p ++ x) (p ++ y) := by
  induction p with
  | nil => exact h
  | cons c cs ih => exact List.Lex.cons ih

theorem int_digit_toString_toList :
    ∀ n : Nat, n < 10 → (toString ((n : Nat) : Int)).toList = [Nat.digitChar n] := by
  decide

theorem nat_digit_toString_toList :
    ∀ n : Nat, n < 10 → (toString n).toList = [Nat.digitChar n] := by
  decide

theorem digitChar_strictMono :
    ∀ a, a < 10 → ∀ b, b < 10 → a < b → Nat.digitChar a < Nat.digitChar b := by
  decide

theorem int_toString_toList (s : Int) (h0 : 0 ≤ s) (h10 : s < 10) :
    (toString s).toList = [Nat.digitChar s.toNat] := by
  have hn : s.toNat < 10 := by omega
  have hs : ((s.toNat : Nat) : Int) = s := by omega
  calc (toString s).toList = (toString ((s.toNat : Nat) : Int)).toList := by rw [hs]
    _ = [Nat.digitChar s.toNat] := int_digit_toString_toList s.toNat hn

/-- The invariant of `batch`'s loop: every emitted page respects both
limits, and the pages concatenate back to the input. -/
theorem batchLoop_invariant (values : List PutEventsRequestEntry) :
    ∀ (rest : List PutEventsRequestEntry) (i batchFrom batchSize : Nat)
      (pages pages' : List (List PutEventsRequestEntry)),
      rest = values.drop i →
      i ≤ values.length →
      batchFrom ≤ i →
      i - batchFrom ≤ maxCount →
      batchSize = sizeSum ((values.drop batchFrom).take (i - batchFrom)) →
      batchSize ≤ maxBatchSizeKB →
      (∀ p ∈ pages, p.length ≤ maxCount ∧ sizeSum p ≤ maxBatchSizeKB) →
      pages.flatten = values.take batchFrom →
      batchLoop values rest i batchFrom batchSize pages = (pages', none) →
      (∀ p ∈ pages', p.length ≤ maxCount ∧ sizeSum p ≤ maxBatchSizeKB)
      ∧ pages'.flatten = values := by
  intro rest
  induction rest with
  | nil =>
    intro i batchFrom batchSize pages pages' hrest hi hbf hcount hbs hbsle hpages hjoin hrun
    have hlen : values.length ≤ i := List.drop_eq_nil_iff.mp hrest.symm
    simp only [batchLoop] at hrun
    by_cases hbflt : batchFrom < values.length
    · rw [if_pos hbflt] at hrun
      injection hrun with h1 _
      subst h1
      constructor
      · intro p hp
        rcases List.mem_append.mp hp with hp | hp
        · exact hpages p hp
        · rw [List.mem_singleton] at hp
          subst hp
          constructor
          · rw [List.length_drop]
            have hmc : maxCount = 10 := rfl
            show values.length - batchFrom ≤ 10
            omega
          · have htake : (values.drop batchFrom).take (i - batchFrom) =
                values.drop batchFrom := by
              apply List.take_of_length_le
              rw [List.length_drop]
              omega
            rw [← htake, ← hbs]
            exact hbsle
      · rw [List.flatten_append, hjoin]
        simp [List.take_append_drop]
    · rw [if_neg hbflt] at hrun
      injection hrun with h1 _
      subst h1
      refine ⟨hpages, ?_⟩
      have hbfeq : batchFrom = values.length := by omega
      rw [hjoin, hbfeq, List.take_length]
  | cons v rest' ih =>
    intro i batchFrom batchSize pages pages' hrest hi hbf hcount hbs hbsle hpages hjoin hrun
    have hd : values.drop i = v :: rest' := hrest.symm
    have hlt : i < values.length := by
      by_contra hcon
      push_neg at hcon
      rw [List.drop_eq_nil_iff.mpr hcon] at hd
      cases hd
    have hrest' : rest' = values.drop (i + 1) := by
      have hdd : values.drop (i + 1) = (values.drop i).drop 1 := by
        rw [List.drop_drop]
      rw [hdd, hd]
      rfl
    have hvi : values[i]? = some v := by
      have h0 : (values.drop i)[0]? = values[i + 0]? := List.getElem?_drop values i 0
      rw [hd] at h0
      simpa using h0.symm
    simp only [batchLoop] at hrun
    by_cases hbig : getSize v > maxBatchSizeKB
    · rw [if_pos hbig] at hrun
      have := congrArg Prod.snd hrun
      simp at this
    · rw [if_neg hbig] at hrun
      by_cases hreset : batchSize + getSize v ≥ maxBatchSizeKB ∨ i - batchFrom = maxCount
      · rw [if_pos hreset] at hrun
        refine ih (i + 1) i (0 + getSize v)
          (pages ++ [(values.drop batchFrom).take (i - batchFrom)]) pages' hrest'
          (by omega) (by omega)
          (by have hmc : maxCount = 10 := rfl; omega)
          ?_ (by omega) ?_ ?_ hrun
        · have h1 : i + 1 - i = 1 := by omega
          rw [h1, hd]
          simp [sizeSum]
        · intro p hp
          rcases List.mem_append.mp hp with hp | hp
          · exact hpages p hp
          · rw [List.mem_singleton] at hp
            subst hp
            constructor
            · rw [List.length_take, List.length_drop]
              have hmc : maxCount = 10 := rfl
              show (i - batchFrom) ⊓ (values.length - batchFrom) ≤ 10
              omega
            · rw [← hbs]
              exact hbsle
        · rw [List.flatten_append, hjoin]
          simp only [List.flatten_cons, List.flatten_nil, List.append_nil]
          rw [← List.take_add]
          have h2 : batchFrom + (i - batchFrom) = i := by omega
          rw [h2]
      · rw [if_neg hreset] at hrun
        push_neg at hreset
        obtain ⟨hlt', hne⟩ := hreset
        refine ih (i + 1) batchFrom (batchSize + getSize v) pages pages' hrest'
          (by omega) (by omega) (by omega) ?_ (by omega) hpages hjoin hrun
        have h1 : i + 1 - batchFrom = (i - batchFrom) + 1 := by omega
        rw [h1, List.take_succ, List.getElem?_drop]
        have h2 : batchFrom + (i - batchFrom) = i := by omega
        rw [h2, hvi, hbs]
        simp [sizeSum]

/-- If some remaining entry is oversized, the loop ends in an error. -/
theorem batchLoop_oversized (values : List PutEventsRequestEntry) :
    ∀ (rest : List PutEventsRequestEntry) (i batchFrom batchSize : Nat)
      (pages : List (List PutEventsRequestEntry)),
      (∃ v ∈ rest, getSize v > maxBatchSizeKB) →
      (batchLoop values rest i batchFrom batchSize pages).2.isSome := by
  intro rest
  induction rest with
  | nil =>
    intro i batchFrom batchSize pages hex
    simp at hex
  | cons v rest' ih =>
    intro i batchFrom batchSize pages hex
    simp only [batchLoop]
    by_cases hbig : getSize v > maxBatchSizeKB
    · rw [if_pos hbig]
      rfl
    · rw [if_neg hbig]
      have hex' : ∃ w ∈ rest', getSize w > maxBatchSizeKB := by
        obtain ⟨w, hw, hws⟩ := hex
        rcases List.mem_cons.mp hw with rfl | hw'
        · exact absurd hws hbig
        · exact ⟨w, hw', hws⟩
      by_cases hreset : batchSize + getSize v ≥ maxBatchSizeKB ∨ i - batchFrom = maxCount
      · rw [if_pos hreset]
        exact ih _ _ _ _ hex'
      · rw [if_neg hreset]
        exact ih _ _ _ _ hex'

/-- Lexicographic monotonicity of `<prefix><seq>/<idx>/<name>` keys while
`seq` and `idx` stay single-digit. -/
theorem recordSortKey_lt_generic (pre : String) (n1 n2 : String) (s1 s2 : Int) (i1 i2 : Nat)
    (hs1 : 0 ≤ s1) (hs1' : s1 < 10) (hs2 : 0 ≤ s2) (hs2' : s2 < 10)
    (hi1 : i1 < 10) (hi2 : i2 < 10)
    (h : s1 < s2 ∨ (s1 = s2 ∧ i1 < i2)) :
    (pre ++ toString s1 ++ "/" ++ toString i1 ++ "/" ++ n1) <
      (pre ++ toString s2 ++ "/" ++ toString i2 ++ "/" ++ n2) := by
  rw [String.lt_iff_toList_lt]
  simp only [string_toList_append, List.append_assoc]
  rw [int_toString_toList s1 hs1 hs1', int_toString_toList s2 hs2 hs2',
    nat_digit_toString_toList i1 hi1, nat_digit_toString_toList i2 hi2]
  rcases h with hlt | ⟨rfl, hilt⟩
  · exact lex_append_left pre.toList
      (List.Lex.rel (digitChar_strictMono s1.toNat (by omega) s2.toNat (by omega) (by omega)))
  · exact lex_append_left pre.toList
      (List.Lex.cons (List.Lex.cons
        (List.Lex.rel (digitChar_strictMono i1 hi1 i2 hi2 hilt))))

/-- C3 counterexample: the unpadded decimal encoding is not
order-preserving — commit 9's inbound key sorts lexicographically *after*
commit 10's. -/
theorem sortKey_not_order_preserving :
    (9 : Int) < 10
    ∧ ¬ createInboundRecordSortKey "A" 9 0 < createInboundRecordSortKey "A" 10 0
    ∧ createInboundRecordSortKey "A" 10 0 < createInboundRecordSortKey "A" 9 0 := by
  refine ⟨by norm_num, ?_, ?_⟩
  · simp only [String.lt_iff_toList_lt]
    decide
  · rw [String.lt_iff_toList_lt]
    decide

/-- C3 amended: the INBOUND/OUTBOUND sort-key encoding is order-preserving
as long as all sequence numbers and indices keep single-digit decimal
representations (it is not for arbitrary values, the decimal fields being
unpadded), and `QueryWithHistory` returns the inbound and outbound lists in
exactly the order of the records it read. -/
theorem sortKey_order_and_query_order {σ ι ω : Type}
    (unmarshalState : Record → σ → Except String σ)
    (inboundReader : List (String × (Record → Except String ι)))
    (outboundReader : List (String × (Record → Except String ω)))
    (stateHistoryReader : Record → Except String σ)
    (state0 : σ) (records : List Record) :
    (∀ (n1 n2 : String) (s1 s2 : Int) (i1 i2 : Nat),
        0 ≤ s1 → s1 < 10 → 0 ≤ s2 → s2 < 10 → i1 < 10 → i2 < 10 →
        (s1 < s2 ∨ (s1 = s2 ∧ i1 < i2)) →
        createInboundRecordSortKey n1 s1 i1 < createInboundRecordSortKey n2 s2 i2)
    ∧ (∀ (n1 n2 : String) (s1 s2 : Int) (i1 i2 : Nat),
        0 ≤ s1 → s1 < 10 → 0 ≤ s2 → s2 < 10 → i1 < 10 → i2 < 10 →
        (s1 < s2 ∨ (s1 = s2 ∧ i1 < i2)) →
        createOutboundRecordSortKey n1 s1 i1 < createOutboundRecordSortKey n2 s2 i2)
    ∧ (∀ res,
        queryWithHistory unmarshalState inboundReader outboundReader stateHistoryReader
            state0 records = Except.ok res →
        res.2.1 = orderedInboundDecodes inboundReader records
        ∧ res.2.2.1 = orderedOutboundDecodes outboundReader records) := by
  refine ⟨?_, ?_, ?_⟩
  · intro n1 n2 s1 s2 i1 i2 hs1 hs1' hs2 hs2' hi1 hi2 h
    exact recordSortKey_lt_generic "INBOUND/" n1 n2 s1 s2 i1 i2 hs1 hs1' hs2 hs2' hi1 hi2 h
  · intro n1 n2 s1 s2 i1 i2 hs1 hs1' hs2 hs2' hi1 hi2 h
    exact recordSortKey_lt_generic "OUTBOUND/" n1 n2 s1 s2 i1 i2 hs1 hs1' hs2 hs2' hi1 hi2 h
  · intro res h
    unfold queryWithHistory at h
    rcases hq : queryFold unmarshalState inboundReader outboundReader stateHistoryReader
        { found := false, sequence := 0, state := state0, inbound := [], outbound := [],
          stateHistory := [] } records with e | acc
    · rw [hq] at h; cases h
    · rw [hq] at h
      dsimp only at h
      by_cases hf : acc.found
      · rw [if_pos hf] at h
        injection h with h
        subst h
        obtain ⟨hi, ho⟩ := queryFold_inbound_outbound_order unmarshalState inboundReader
          outboundReader stateHistoryReader records _ acc hq
        simp only [List.nil_append] at hi ho
        exact ⟨hi, ho⟩
      · rw [if_neg hf] at h
        cases h

/-- Witness for the amended C3: concrete single-digit keys, and a concrete
two-record query. -/
theorem sortKey_order_and_query_order_witness :
    createInboundRecordSortKey "A" 1 0 < createInboundRecordSortKey "B" 2 5
    ∧ createOutboundRecordSortKey "A" 3 1 < createOutboundRecordSortKey "B" 3 2
    ∧ ((1, [0], [], []) : Int × List Int × List Int × List Int).2.1 =
        orderedInboundDecodes [("E", fun _ => Except.ok (0 : Int))]
          [[("_sk", AttributeValue.S "STATE"), ("_seq", AttributeValue.N "1")],
            [("_sk", AttributeValue.S "INBOUND/1/0/E"), ("_typ", AttributeValue.S "E")]] := by
  refine ⟨?_, ?_, ?_⟩
  · exact (sortKey_order_and_query_order (σ := Int) (ι := Int) (ω := Int)
      (fun _ s => Except.ok s) [] [] (fun _ => Except.ok 0) 0 []).1 "A" "B" 1 2 0 5
      (by decide) (by decide) (by decide) (by decide) (by decide) (by decide)
      (Or.inl (by decide))
  · exact (sortKey_order_and_query_order (σ := Int) (ι := Int) (ω := Int)
      (fun _ s => Except.ok s) [] [] (fun _ => Except.ok 0) 0 []).2.1 "A" "B" 3 3 1 2
      (by decide) (by decide) (by decide) (by decide) (by decide) (by decide)
      (Or.inr ⟨rfl, by decide⟩)
  · exact ((sortKey_order_and_query_order (σ := Int) (ι := Int) (ω := Int)
      (fun _ s => Except.ok s) [("E", fun _ => Except.ok (0 : Int))] [] (fun _ => Except.ok 0) 0
      [[("_sk", AttributeValue.S "STATE"), ("_seq", AttributeValue.N "1")],
        [("_sk", AttributeValue.S "INBOUND/1/0/E"), ("_typ", AttributeValue.S "E")]]).2.2
      (1, [0], [], []) (by rfl)).1

/-- C8: every batch `batch` emits holds at most 10 entries and at most
256 KiB of cumulative payload (entry sizes per `getSize`), the batches
concatenate back to the input, and an entry larger than 256 KiB makes
`batch` error so that the handler publishes nothing. -/
theorem batch_respects_limits (values : List PutEventsRequestEntry) :
    ((batch values).2 = none →
      ∀ p ∈ (batch values).1, p.length ≤ 10 ∧ sizeSum p ≤ 256 * 1024)
    ∧ ((batch values).2 = none → (batch values).1.flatten = values)
    ∧ ((∃ v ∈ values, getSize v > 256 * 1024) →
      (batch values).2.isSome ∧ batchesToSend values = []) := by
  have hrun : batchLoop values values 0 0 0 [] = ((batch values).1, (batch values).2) := by
    simp [batch]
  refine ⟨?_, ?_, ?_⟩
  · intro hnone p hp
    rw [hnone] at hrun
    exact (batchLoop_invariant values values 0 0 0 [] (batch values).1
      (List.drop_zero values).symm (Nat.zero_le _) (Nat.le_refl 0) (by simp)
      (by simp [sizeSum]) (Nat.zero_le _) (by simp) (by simp) hrun).1 p hp
  · intro hnone
    rw [hnone] at hrun
    exact (batchLoop_invariant values values 0 0 0 [] (batch values).1
      (List.drop_zero values).symm (Nat.zero_le _) (Nat.le_refl 0) (by simp)
      (by simp [sizeSum]) (Nat.zero_le _) (by simp) (by simp) hrun).2
  · intro hex
    have hs : (batch values).2.isSome := batchLoop_oversized values values 0 0 0 [] hex
    refine ⟨hs, ?_⟩
    rcases hb : batch values with ⟨pages, _ | e⟩
    · exfalso
      rw [hb] at hs
      simp at hs
    · unfold batchesToSend
      rw [hb]

/-- A payload-only entry of size `n`: `getSize` is the source length. -/
theorem getSize_replicate_source (n : Nat) :
    getSize ⟨none, (List.replicate n 'a').asString, "", none, []⟩ = n := by
  simp [getSize, List.asString, String.length_mk, List.length_replicate]

theorem getSize_oversizedEntry : getSize oversizedEntry = 256 * 1024 + 1 :=
  getSize_replicate_source (256 * 1024 + 1)

/-- Witness for C8: a small batch passes both limits; an oversized entry
errors and nothing is sent. -/
theorem batch_respects_limits_witness :
    (([⟨none, "s", "t", none, []⟩] : List PutEventsRequestEntry).length ≤ 10
      ∧ sizeSum [⟨none, "s", "t", none, []⟩] ≤ 256 * 1024)
    ∧ (batch [oversizedEntry]).2.isSome
    ∧ batchesToSend [oversizedEntry] = [] := by
  have h1 := (batch_respects_limits [⟨none, "s", "t", none, []⟩]).1 rfl
    [⟨none, "s", "t", none, []⟩] (by decide)
  have h2 := (batch_respects_limits [oversizedEntry]).2.2
    ⟨oversizedEntry, List.mem_cons_self oversizedEntry [], by
      rw [getSize_oversizedEntry]
      omega⟩
  exact ⟨h1, h2.1, h2.2⟩

theorem getSize_exactSizeEntry : getSize exactSizeEntry = 256 * 1024 :=
  getSize_replicate_source (256 * 1024)

/-- C10: an entry of size exactly 256 KiB is not rejected as oversized,
but as first entry of the current batch it trips the cumulative-size check
before being added, so `batch` emits a leading empty batch. -/
theorem batch_emits_empty_page :
    getSize exactSizeEntry = 256 * 1024
    ∧ batch [exactSizeEntry] = ([[], [exactSizeEntry]], none)
    ∧ [] ∈ (batch [exactSizeEntry]).1 := by
  have hbatch : batch [exactSizeEntry] = ([[], [exactSizeEntry]], none) := by
    show batchLoop [exactSizeEntry] [exactSizeEntry] 0 0 0 [] = ([[], [exactSizeEntry]], none)
    simp [batchLoop, getSize_exactSizeEntry, maxBatchSizeKB, maxCount]
  refine ⟨getSize_exactSizeEntry, hbatch, ?_⟩
  rw [hbatch]
  simp

end AHStream
